import Mathlib

/-!
Verification of the strava-stats training-load analytics engine.

The definitions below are a shallow embedding of the engine's source:
* `src/webapp/src/lib/fitnessModel.ts` (daily load aggregator and Banister
  impulse-response fitness model) — embedded over `ℝ`, since the TRIMP
  formula uses `Math.exp`;
* the power-curve calculator module (`calculatePowerCurve`,
  `calculatePowerCurveSync`, `estimateFTP` and helpers) — embedded over `ℚ`.

Conventions of the embedding:
* JavaScript `number | null` fields become `Option` values; JavaScript
  truthiness (`null`, `undefined` and `0` are falsy) is `truthy`;
* `Math.round` is `jsRound` (round half towards positive infinity);
* calendar days are day numbers (`ℕ`); activity durations are whole seconds;
* `Math.pow (x, 0.1)` in the estimation fallback is an abstract parameter
  `jsPow : ℚ → ℚ → ℚ` (a transcendental real power has no exact rational
  value; no claim depends on the value of that branch);
* the asynchronous stream fetch of `calculatePowerCurve` is modelled by an
  explicit argument `fetch : Option (List PowerStreamData)`: `some ss` is a
  successful fetch returning `ss`, `none` is a fetch that threw (the source
  catches the error and keeps `powerStreams = []`).
-/

namespace StravaStats

/-- JavaScript `Math.round`: round to nearest, half towards `+∞`. -/
def jsRound {α : Type} [LinearOrderedField α] [FloorRing α] (x : α) : ℤ :=
  ⌊x + 1 / 2⌋

/-- JavaScript truthiness of an optional numeric field:
`null`/`undefined` and `0` are falsy. -/
def truthy {α : Type} [Zero α] [DecidableEq α] (o : Option α) : Bool :=
  decide (o.getD 0 ≠ 0)

/-- JavaScript `a || b` on optional numeric fields. -/
def jsOr {α : Type} [Zero α] [DecidableEq α] (a b : Option α) : Option α :=
  if truthy a then a else b

/-! ### Fitness model (`fitnessModel.ts`) -/

inductive Gender where
  | male
  | female
deriving DecidableEq

/-- Record `DailyTrainingLoad`: one training-load scalar per calendar day. -/
structure DailyTrainingLoad where
  date : ℕ
  load : ℝ

/-- Record `FitnessMetrics`: one CTL/ATL/TSB/load record per calendar day. -/
structure FitnessMetrics where
  date : ℕ
  ctl : ℝ
  atl : ℝ
  tsb : ℝ
  load : ℝ

/-- Record `FitnessModelConfig` (defaults 42 / 7 / 0 / 0 in the source). -/
structure FitnessModelConfig where
  ctlTimeConstant : ℝ
  atlTimeConstant : ℝ
  initialCtl : ℝ
  initialAtl : ℝ

/-- Function `decayFactor`: exponential decay factor for a time constant. -/
noncomputable def decayFactor (timeConstant : ℝ) : ℝ :=
  Real.exp (-1 / timeConstant)

/-- JavaScript `Math.round(x * 10) / 10`: rounding to one decimal place. -/
noncomputable def round1 (x : ℝ) : ℝ :=
  (jsRound (x * 10) : ℝ) / 10

/-- The unrounded TRIMP value (the local `trimp` of `calculateTRIMP`,
with the same degenerate-input guard). -/
noncomputable def trimpRaw (durationMinutes avgHeartRate restingHeartRate maxHeartRate : ℝ)
    (gender : Gender) : ℝ :=
  if maxHeartRate ≤ restingHeartRate ∨ avgHeartRate < restingHeartRate then 0
  else
    let hrr := (avgHeartRate - restingHeartRate) / (maxHeartRate - restingHeartRate)
    let clampedHrr := max 0 (min 1 hrr)
    let y : ℝ := if gender = Gender.male then 1.92 else 1.67
    durationMinutes * clampedHrr * 0.64 * Real.exp (y * clampedHrr)

/-- Function `calculateTRIMP` from `fitnessModel.ts`. -/
noncomputable def calculateTRIMP (durationMinutes avgHeartRate restingHeartRate maxHeartRate : ℝ)
    (gender : Gender) : ℝ :=
  if maxHeartRate ≤ restingHeartRate ∨ avgHeartRate < restingHeartRate then 0
  else
    let hrr := (avgHeartRate - restingHeartRate) / (maxHeartRate - restingHeartRate)
    let clampedHrr := max 0 (min 1 hrr)
    let y : ℝ := if gender = Gender.male then 1.92 else 1.67
    (jsRound (durationMinutes * clampedHrr * 0.64 * Real.exp (y * clampedHrr)) : ℝ)

/-- The unrounded TSS value (the local `tss` of `calculateTSS`,
with the same degenerate-input guard). -/
noncomputable def tssRaw (durationSeconds normalizedPower ftp : ℝ) : ℝ :=
  if ftp ≤ 0 ∨ durationSeconds ≤ 0 then 0
  else durationSeconds * normalizedPower * (normalizedPower / ftp) / (ftp * 3600) * 100

/-- Function `calculateTSS` from `fitnessModel.ts`. -/
noncomputable def calculateTSS (durationSeconds normalizedPower ftp : ℝ) : ℝ :=
  if ftp ≤ 0 ∨ durationSeconds ≤ 0 then 0
  else (jsRound (durationSeconds * normalizedPower * (normalizedPower / ftp) / (ftp * 3600) * 100) : ℝ)

/-- Function `estimateLoadFromSufferScore` from `fitnessModel.ts`. -/
noncomputable def estimateLoadFromSufferScore (sufferScore : Option ℝ) (durationMinutes : ℝ) : ℝ :=
  if truthy sufferScore ∧ 0 < sufferScore.getD 0 then sufferScore.getD 0
  else (jsRound (durationMinutes * 0.5) : ℝ)

/-- Record `ActivityForLoad`: the activity fields read by the daily load aggregator.
`start_date` is the activity's calendar day (a day number); `moving_time` is
whole seconds. -/
structure ActivityForLoad where
  start_date : ℕ
  moving_time : Option ℕ
  average_heartrate : Option ℝ
  suffer_score : Option ℝ
  average_watts : Option ℝ
  weighted_average_watts : Option ℝ

/-- The options record of `activitiesToDailyLoads`
(defaults 60 / 190 / 200 / male in the source). -/
structure LoadOptions where
  restingHeartRate : ℝ
  maxHeartRate : ℝ
  ftp : ℝ
  gender : Gender

/-- The per-activity load computed by the body of the `dayActivities.forEach`
loop of `activitiesToDailyLoads`: power-based TSS, else heart-rate TRIMP,
else suffer-score / duration fallback. -/
noncomputable def activityLoad (opts : LoadOptions) (a : ActivityForLoad) : ℝ :=
  let durationMinutes : ℝ := (a.moving_time.getD 0 : ℕ) / 60
  if truthy (jsOr a.weighted_average_watts a.average_watts) then
    calculateTSS ((a.moving_time.getD 0 : ℕ) : ℝ)
      ((jsOr a.weighted_average_watts a.average_watts).getD 0) opts.ftp
  else if truthy a.average_heartrate then
    calculateTRIMP durationMinutes (a.average_heartrate.getD 0)
      opts.restingHeartRate opts.maxHeartRate opts.gender
  else
    estimateLoadFromSufferScore a.suffer_score durationMinutes

/-- Function `activitiesToDailyLoads`: group activities by calendar day, sum each
day's per-activity loads, and sort the result ascending by date. The JS `Map`
iterates its keys in first-insertion order; `List.dedup` also produces each
distinct date exactly once, and since the grouped list is immediately sorted
by date (all dates distinct), the sorted output is identical. -/
noncomputable def activitiesToDailyLoads (activities : List ActivityForLoad)
    (opts : LoadOptions) : List DailyTrainingLoad :=
  let dates := (activities.map (fun a => a.start_date)).dedup
  let dailyLoads := dates.map (fun d =>
    ⟨d, ((activities.filter (fun a => a.start_date == d)).map (activityLoad opts)).sum⟩)
  dailyLoads.mergeSort (fun x y => decide (x.date ≤ y.date))

/-- The `loadMap.get(dateStr) ?? 0` lookup of `calculateFitnessMetrics`: the
map is filled by iterating the sorted loads, so a duplicated date keeps the
last value in sorted order. -/
noncomputable def lookupLoad (sorted : List DailyTrainingLoad) (d : ℕ) : ℝ :=
  (((sorted.filter (fun l => l.date == d)).getLast?).map (fun l => l.load)).getD 0

/-- The day-by-day `while (currentDate <= endDate)` loop of
`calculateFitnessMetrics`, with the CTL/ATL state threaded through. -/
noncomputable def fitnessLoop (lookup : ℕ → ℝ) (ctlDecay atlDecay : ℝ) :
    ℝ → ℝ → List ℕ → List FitnessMetrics
  | _, _, [] => []
  | ctl, atl, day :: days =>
    let load := lookup day
    let ctl' := ctl * ctlDecay + load * (1 - ctlDecay)
    let atl' := atl * atlDecay + load * (1 - atlDecay)
    ⟨day, round1 ctl', round1 atl', round1 (ctl' - atl'), load⟩ ::
      fitnessLoop lookup ctlDecay atlDecay ctl' atl' days

/-- Function `calculateFitnessMetrics` from `fitnessModel.ts`: sort the loads, then
visit every calendar day from the first to the last date inclusive, applying
the impulse-response recurrence (absent days contribute load 0). -/
noncomputable def calculateFitnessMetrics (dailyLoads : List DailyTrainingLoad)
    (cfg : FitnessModelConfig) : List FitnessMetrics :=
  match dailyLoads.mergeSort (fun a b => decide (a.date ≤ b.date)) with
  | [] => []
  | first :: rest =>
    let sorted := first :: rest
    let startDate := first.date
    let endDate := ((first :: rest).getLast?.getD first).date
    fitnessLoop (lookupLoad sorted)
      (decayFactor cfg.ctlTimeConstant) (decayFactor cfg.atlTimeConstant)
      cfg.initialCtl cfg.initialAtl
      ((List.range (endDate + 1 - startDate)).map (fun i => startDate + i))

/-- Function `getFitnessTrend` from `fitnessModel.ts`; `metrics.length - 1 - days` is
`Math.max(0, metrics.length - 1 - days)` (truncated ℕ subtraction clamps at 0
exactly as the source's `Math.max`). -/
noncomputable def getFitnessTrend (metrics : List FitnessMetrics) (days : ℕ) : ℝ :=
  if metrics.length < 2 then 0
  else
    match metrics.getLast?, metrics[metrics.length - 1 - days]? with
    | some recent, some past => round1 (recent.ctl - past.ctl)
    | _, _ => 0

/-! ### Power curve calculator -/

/-- The activity fields read by the power curve calculator (`moving_time` is
whole seconds; watt fields may be absent). -/
structure Activity where
  id : ℕ
  name : String
  type : String
  sport_type : Option String
  start_date : String
  moving_time : Option ℕ
  average_watts : Option ℚ
  weighted_average_watts : Option ℚ
  max_watts : Option ℚ

/-- Record `PowerStreamData` supplied by the stream store: per-sample times
(seconds) and watt readings (may contain nulls). -/
structure PowerStreamData where
  activityId : ℕ
  timeData : List ℚ
  powerData : List (Option ℚ)

structure PowerCurvePoint where
  duration : ℕ
  durationLabel : String
  power : ℤ
  activityId : ℕ
  activityName : String
  activityDate : String
  fromStream : Bool

structure PowerCurve where
  points : List PowerCurvePoint
  period : String

structure Interval where
  seconds : ℕ
  label : String
deriving DecidableEq

/-- Constant `POWER_CURVE_INTERVALS`: the fixed ordered list of standard durations. -/
def POWER_CURVE_INTERVALS : List Interval :=
  [⟨5, "5s"⟩, ⟨15, "15s"⟩, ⟨30, "30s"⟩, ⟨60, "1m"⟩, ⟨120, "2m"⟩, ⟨180, "3m"⟩,
   ⟨300, "5m"⟩, ⟨480, "8m"⟩, ⟨600, "10m"⟩, ⟨900, "15m"⟩, ⟨1200, "20m"⟩,
   ⟨1800, "30m"⟩, ⟨2700, "45m"⟩, ⟨3600, "1hr"⟩, ⟨7200, "2hr"⟩]

def CYCLING_SPORT_TYPES : List String :=
  ["Ride", "VirtualRide", "GravelRide", "MountainBikeRide", "EBikeRide"]

/-- Function `isCyclingActivity` from the power curve module. -/
def isCyclingActivity (a : Activity) : Bool :=
  a.type == "Ride" ||
    (match a.sport_type with
     | some st => CYCLING_SPORT_TYPES.contains st
     | none => false)

/-- Function `hasPowerData` from the power curve module. -/
def hasPowerData (a : Activity) : Bool :=
  truthy a.average_watts || truthy a.weighted_average_watts

/-- The candidate filter shared by both entry points: cycling activities
carrying some power reading. -/
def cyclingWithPower (activities : List Activity) : List Activity :=
  activities.filter (fun a => isCyclingActivity a && hasPowerData a)

/-- The `while (windowStart < windowEnd)` pointer advance of
`calculateBestPowerForDuration`: move `windowStart` forward while its sample
time is defined and strictly before `windowEndTime - target`. -/
def advanceStart (timeData : List ℚ) (targetStartTime : ℚ) (windowEnd : ℕ)
    (windowStart : ℕ) : ℕ :=
  if windowStart < windowEnd then
    match timeData[windowStart]? with
    | none => windowStart
    | some startTime =>
      if targetStartTime ≤ startTime then windowStart
      else advanceStart timeData targetStartTime windowEnd (windowStart + 1)
  else windowStart
termination_by windowEnd - windowStart
decreasing_by omega

/-- The inner `for (let i = windowStart; i <= windowEnd; i++)` accumulation of
`calculateBestPowerForDuration`: sum and count of the valid (present,
non-negative) power samples of the `count` indices starting at `i`. -/
def windowStats (powerData : List (Option ℚ)) : ℕ → ℕ → ℚ × ℕ
  | _, 0 => (0, 0)
  | i, count + 1 =>
    let rest := windowStats powerData (i + 1) count
    match powerData[i]? with
    | some (some power) => if 0 ≤ power then (rest.1 + power, rest.2 + 1) else rest
    | _ => rest

/-- The outer sliding-window loop of `calculateBestPowerForDuration`:
`windowEnd` scans every sample, `windowStart` trails, and `best` tracks the
maximum window-average power seen so far. -/
def bestLoop (timeData : List ℚ) (powerData : List (Option ℚ)) (target : ℚ)
    (windowEnd windowStart : ℕ) (best : ℚ) : ℚ :=
  if windowEnd < timeData.length then
    match timeData[windowEnd]? with
    | none => bestLoop timeData powerData target (windowEnd + 1) windowStart best
    | some windowEndTime =>
      let ws := advanceStart timeData (windowEndTime - target) windowEnd windowStart
      match timeData[ws]? with
      | none => bestLoop timeData powerData target (windowEnd + 1) ws best
      | some windowStartTime =>
        if target * (9 / 10) ≤ windowEndTime - windowStartTime then
          let stats := windowStats powerData ws (windowEnd + 1 - ws)
          if 0 < stats.2 ∧ best < stats.1 / stats.2 then
            bestLoop timeData powerData target (windowEnd + 1) ws (stats.1 / stats.2)
          else bestLoop timeData powerData target (windowEnd + 1) ws best
        else bestLoop timeData powerData target (windowEnd + 1) ws best
  else best
termination_by timeData.length - windowEnd
decreasing_by all_goals omega

/-- Function `calculateBestPowerForDuration`: best mean power over sliding time windows
of at least (0.9×) the target duration; `none` when the data is too short or no
window qualifies with positive power. -/
def calculateBestPowerForDuration (timeData : List ℚ) (powerData : List (Option ℚ))
    (targetDurationSeconds : ℚ) : Option ℤ :=
  if timeData.length < 2 ∨ powerData.length < 2 then none
  else
    match timeData[0]?, timeData[timeData.length - 1]? with
    | some firstTime, some lastTime =>
      if lastTime - firstTime < targetDurationSeconds then none
      else
        let bestAvgPower := bestLoop timeData powerData targetDurationSeconds 0 0 0
        if 0 < bestAvgPower then some (jsRound bestAvgPower) else none
    | _, _ => none

/-- Function `estimateBestPowerForDuration`: summary-field estimate used when no
stream is available. `jsPow x y` stands for `Math.pow(x, y)`. -/
def estimateBestPowerForDuration (jsPow : ℚ → ℚ → ℚ) (a : Activity)
    (durationSeconds : ℕ) : Option ℤ :=
  let activityDuration := a.moving_time.getD 0
  let avgPowerOpt := jsOr a.weighted_average_watts a.average_watts
  if truthy avgPowerOpt then
    let avgPower := avgPowerOpt.getD 0
    if activityDuration < durationSeconds then none
    else if durationSeconds ≤ 60 ∧ truthy a.max_watts then
      let factor := jsPow ((durationSeconds : ℚ) / (activityDuration : ℚ)) (1 / 10)
      some (jsRound (a.max_watts.getD 0 * (1 - factor) + avgPower * factor))
    else if (durationSeconds : ℚ) < (activityDuration : ℚ) * 0.5 then
      let factor := 1 + 0.1 * (1 - (durationSeconds : ℚ) / (activityDuration : ℚ))
      some (jsRound (avgPower * min factor 1.15))
    else some (jsRound avgPower)
  else none

/-- JavaScript `streamsByActivityId.has(id)` for the fetched stream list. -/
def hasStreamFor (streams : List PowerStreamData) (id : ℕ) : Bool :=
  streams.any (fun s => s.activityId == id)

/-- JavaScript `activitiesById.get(id) || null`: JS `Map.set` keeps the last insertion
for a duplicated key. -/
def findById (activities : List Activity) (id : ℕ) : Option Activity :=
  (activities.filter (fun a => a.id == id)).getLast?

/-- The per-interval mutable state of both entry points:
`bestPower`, `bestActivity`, `fromStream`. -/
structure BestState where
  bp : ℤ
  act : Option Activity
  fs : Bool

/-- The body of the estimation loop of `calculatePowerCurveSync` (also the
non-skipped body of the second loop of `calculatePowerCurve`): accept an
estimate that is truthy and strictly better than the best so far. -/
def syncStep (jsPow : ℚ → ℚ → ℚ) (durationSeconds : ℕ) (st : BestState)
    (a : Activity) : BestState :=
  match estimateBestPowerForDuration jsPow a durationSeconds with
  | some power => if power ≠ 0 ∧ st.bp < power then ⟨power, some a, false⟩ else st
  | none => st

/-- The body of the second loop of `calculatePowerCurve`: skip activities
that have a fetched stream, otherwise estimate. -/
def estStep (jsPow : ℚ → ℚ → ℚ) (streams : List PowerStreamData)
    (durationSeconds : ℕ) (st : BestState) (a : Activity) : BestState :=
  if hasStreamFor streams a.id then st else syncStep jsPow durationSeconds st a

/-- The body of the stream loop of `calculatePowerCurve`. -/
def streamStep (cycling : List Activity) (durationSeconds : ℕ) (st : BestState)
    (s : PowerStreamData) : BestState :=
  match calculateBestPowerForDuration s.timeData s.powerData (durationSeconds : ℚ) with
  | some power =>
    if power ≠ 0 ∧ st.bp < power then ⟨power, findById cycling s.activityId, true⟩ else st
  | none => st

/-- The `if (bestActivity && bestPower > 0) points.push(...)` of
`calculatePowerCurve`. -/
def mkPoint (iv : Interval) (st : BestState) : Option PowerCurvePoint :=
  match st.act with
  | some a =>
    if 0 < st.bp then some ⟨iv.seconds, iv.label, st.bp, a.id, a.name, a.start_date, st.fs⟩
    else none
  | none => none

/-- The `if (bestActivity && bestPower > 0) points.push(...)` of
`calculatePowerCurveSync` (`fromStream` is the literal `false`). -/
def mkPointSync (iv : Interval) (st : BestState) : Option PowerCurvePoint :=
  match st.act with
  | some a =>
    if 0 < st.bp then some ⟨iv.seconds, iv.label, st.bp, a.id, a.name, a.start_date, false⟩
    else none
  | none => none

/-- Function `calculatePowerCurve`: stream-augmented power curve. The awaited result
of `getPowerStreamsForActivities` is the `fetch` argument; `none` models a
fetch that threw, which the source catches, leaving `powerStreams = []`. -/
def calculatePowerCurve (jsPow : ℚ → ℚ → ℚ) (activities : List Activity)
    (fetch : Option (List PowerStreamData)) (periodLabel : String) : PowerCurve :=
  let cyclingActivities := cyclingWithPower activities
  if cyclingActivities.isEmpty then ⟨[], periodLabel⟩
  else
    let powerStreams := fetch.getD []
    ⟨POWER_CURVE_INTERVALS.filterMap (fun iv =>
        mkPoint iv (cyclingActivities.foldl (estStep jsPow powerStreams iv.seconds)
          (powerStreams.foldl (streamStep cyclingActivities iv.seconds) ⟨0, none, false⟩))),
      periodLabel⟩

/-- Function `calculatePowerCurveSync`: estimation-only power curve. -/
def calculatePowerCurveSync (jsPow : ℚ → ℚ → ℚ) (activities : List Activity)
    (periodLabel : String) : PowerCurve :=
  let cyclingActivities := cyclingWithPower activities
  ⟨POWER_CURVE_INTERVALS.filterMap (fun iv =>
      mkPointSync iv (cyclingActivities.foldl (syncStep jsPow iv.seconds) ⟨0, none, false⟩)),
    periodLabel⟩

/-- Function `estimateFTP`: 95% of the 20-minute point, else the 1-hour point, else
nothing. -/
def estimateFTP (curve : PowerCurve) : Option ℤ :=
  match curve.points.find? (fun p => p.duration == 1200) with
  | some point20min => some (jsRound ((point20min.power : ℚ) * 0.95))
  | none =>
    match curve.points.find? (fun p => p.duration == 3600) with
    | some point60min => some point60min.power
    | none => none

/-- A synthetic time stream spanning `N` seconds, one sample per second. -/
def constTimes (N : ℕ) : List ℚ :=
  (List.range (N + 1)).map (fun (i : ℕ) => (i : ℚ))

/-- A synthetic constant power stream matching `constTimes N`. -/
def constPowers (N P : ℕ) : List (Option ℚ) :=
  List.replicate (N + 1) (some (P : ℚ))

/-- A trivial stand-in for `Math.pow(x, 0.1)` used only on inputs whose
`max_watts` is absent, so the interpolation branch that would consult it is
never taken. -/
def jsPow0 : ℚ → ℚ → ℚ := fun _ _ => 0

/-- Example cycling activity with average power 300 W, a given moving time
and no max-power reading. -/
def cexAct (mt : Option ℕ) : Activity :=
  ⟨1, "ride", "Ride", none, "2024-01-01", mt, some 300, none, none⟩

/-- Example fetched stream for activity 1: 6 samples spanning 5 seconds at a
constant 100 W. -/
def cexStream : PowerStreamData :=
  ⟨1, constTimes 5, constPowers 5 100⟩

/-! ### Helper lemmas about `jsRound` -/

theorem jsRound_mono {α : Type} [LinearOrderedField α] [FloorRing α] {x y : α}
    (h : x ≤ y) : jsRound x ≤ jsRound y :=
  Int.floor_le_floor (by linarith)

theorem jsRound_nonneg {α : Type} [LinearOrderedField α] [FloorRing α] {x : α}
    (h : 0 ≤ x) : 0 ≤ jsRound x :=
  Int.le_floor.mpr (by push_cast; linarith)

theorem jsRound_intCast {α : Type} [LinearOrderedField α] [FloorRing α] (z : ℤ) :
    jsRound (z : α) = z := by
  unfold jsRound
  rw [Int.floor_int_add]
  norm_num

theorem abs_jsRound_sub_le {α : Type} [LinearOrderedField α] [FloorRing α] (x : α) :
    |(jsRound x : α) - x| ≤ 1 / 2 := by
  have h1 : (jsRound x : α) ≤ x + 1 / 2 := Int.floor_le _
  have h2 : x + 1 / 2 < (jsRound x : α) + 1 := Int.lt_floor_add_one _
  rw [abs_le]
  constructor <;> linarith

/-! ### C10: loads are rounded to the nearest integer -/

/-- C10: for all inputs, `calculateTRIMP` and `calculateTSS` return integer
values, each within 1/2 of the corresponding unrounded real-valued formula
(`Math.round` rounds to the nearest integer, half up). -/
theorem loads_rounded_to_integers (dm avg rhr mhr : ℝ) (g : Gender) (ds np ftp : ℝ) :
    (∃ n : ℤ, calculateTRIMP dm avg rhr mhr g = n ∧
      |(n : ℝ) - trimpRaw dm avg rhr mhr g| ≤ 1 / 2) ∧
    (∃ m : ℤ, calculateTSS ds np ftp = m ∧
      |(m : ℝ) - tssRaw ds np ftp| ≤ 1 / 2) := by
  constructor
  · unfold calculateTRIMP trimpRaw
    split
    · exact ⟨0, by norm_num⟩
    · exact ⟨jsRound _, rfl, abs_jsRound_sub_le _⟩
  · unfold calculateTSS tssRaw
    split
    · exact ⟨0, by norm_num⟩
    · exact ⟨jsRound _, rfl, abs_jsRound_sub_le _⟩

/-! ### C9: `estimateFTP` -/

/-- C9: `estimateFTP` returns `round(0.95 × power)` of the 1200 s point
whenever one exists (whatever other points are present); otherwise the 3600 s
point's power unscaled if it exists; otherwise `none`. -/
theorem estimateFTP_spec (curve : PowerCurve) :
    (∀ pt, curve.points.find? (fun p => p.duration == 1200) = some pt →
      estimateFTP curve = some (jsRound ((pt.power : ℚ) * 0.95))) ∧
    (curve.points.find? (fun p => p.duration == 1200) = none →
      ∀ pt, curve.points.find? (fun p => p.duration == 3600) = some pt →
        estimateFTP curve = some pt.power) ∧
    (curve.points.find? (fun p => p.duration == 1200) = none →
      curve.points.find? (fun p => p.duration == 3600) = none →
      estimateFTP curve = none) := by
  refine ⟨fun pt h => ?_, fun h1 pt h2 => ?_, fun h1 h2 => ?_⟩
  · simp only [estimateFTP, h]
  · simp only [estimateFTP, h1, h2]
  · simp only [estimateFTP, h1, h2]

/-- Witness for C9 at a concrete curve holding a 600 s and a 1200 s point:
`round(300 × 0.95) = 285`. -/
theorem estimateFTP_spec_witness :
    estimateFTP ⟨[⟨600, "10m", 400, 1, "a", "2024-01-01", false⟩,
      ⟨1200, "20m", 300, 1, "a", "2024-01-01", false⟩], "All Time"⟩ = some 285 := by
  have h := (estimateFTP_spec ⟨[⟨600, "10m", 400, 1, "a", "2024-01-01", false⟩,
    ⟨1200, "20m", 300, 1, "a", "2024-01-01", false⟩], "All Time"⟩).1
    ⟨1200, "20m", 300, 1, "a", "2024-01-01", false⟩ (by rfl)
  rw [h]
  norm_num [jsRound]

/-! ### C8: monotonicity of `calculateTRIMP` -/

/-- C8: with `0 ≤ restHR < maxHR`, `calculateTRIMP` is monotonically
non-decreasing in the average heart rate (for `restHR ≤ avgHR`, duration
fixed) and in the duration (average heart rate fixed). -/
theorem calculateTRIMP_monotone (g : Gender) (restHR maxHR : ℝ)
    (h0 : 0 ≤ restHR) (hm : restHR < maxHR) :
    (∀ dm avg1 avg2, 0 ≤ dm → restHR ≤ avg1 → avg1 ≤ avg2 →
      calculateTRIMP dm avg1 restHR maxHR g ≤ calculateTRIMP dm avg2 restHR maxHR g) ∧
    (∀ dm1 dm2 avg, 0 ≤ dm1 → dm1 ≤ dm2 → restHR ≤ avg →
      calculateTRIMP dm1 avg restHR maxHR g ≤ calculateTRIMP dm2 avg restHR maxHR g) := by
  have hy : 0 < (if g = Gender.male then (1.92 : ℝ) else 1.67) := by
    split <;> norm_num
  constructor
  · intro dm avg1 avg2 hdm h1 h12
    have hg1 : ¬(maxHR ≤ restHR ∨ avg1 < restHR) := by push_neg; exact ⟨hm, by linarith⟩
    have hg2 : ¬(maxHR ≤ restHR ∨ avg2 < restHR) := by push_neg; exact ⟨hm, by linarith⟩
    unfold calculateTRIMP
    rw [if_neg hg1, if_neg hg2]
    dsimp only
    set y := if g = Gender.male then (1.92 : ℝ) else 1.67 with hy_def
    set c1 := max 0 (min 1 ((avg1 - restHR) / (maxHR - restHR))) with hc1
    set c2 := max 0 (min 1 ((avg2 - restHR) / (maxHR - restHR))) with hc2
    have hc12 : c1 ≤ c2 := by
      rw [hc1, hc2]
      gcongr
      linarith
    have h0c1 : 0 ≤ c1 := le_max_left _ _
    have h0c2 : 0 ≤ c2 := le_max_left _ _
    have key : c1 * Real.exp (y * c1) ≤ c2 * Real.exp (y * c2) :=
      mul_le_mul hc12 (Real.exp_le_exp.mpr (mul_le_mul_of_nonneg_left hc12 hy.le))
        (Real.exp_pos _).le h0c2
    have step : dm * 0.64 * (c1 * Real.exp (y * c1)) ≤ dm * 0.64 * (c2 * Real.exp (y * c2)) :=
      mul_le_mul_of_nonneg_left key (by linarith)
    have inner : dm * c1 * 0.64 * Real.exp (y * c1) ≤ dm * c2 * 0.64 * Real.exp (y * c2) := by
      calc dm * c1 * 0.64 * Real.exp (y * c1)
          = dm * 0.64 * (c1 * Real.exp (y * c1)) := by ring
        _ ≤ dm * 0.64 * (c2 * Real.exp (y * c2)) := step
        _ = dm * c2 * 0.64 * Real.exp (y * c2) := by ring
    exact_mod_cast jsRound_mono inner
  · intro dm1 dm2 avg hdm1 hdm12 havg
    have hg : ¬(maxHR ≤ restHR ∨ avg < restHR) := by push_neg; exact ⟨hm, by linarith⟩
    unfold calculateTRIMP
    rw [if_neg hg, if_neg hg]
    dsimp only
    set y := if g = Gender.male then (1.92 : ℝ) else 1.67 with hy_def
    set c := max 0 (min 1 ((avg - restHR) / (maxHR - restHR))) with hc
    have h0c : 0 ≤ c := le_max_left _ _
    have inner : dm1 * c * 0.64 * Real.exp (y * c) ≤ dm2 * c * 0.64 * Real.exp (y * c) := by
      have hfac : 0 ≤ c * 0.64 * Real.exp (y * c) := by positivity
      calc dm1 * c * 0.64 * Real.exp (y * c)
          = dm1 * (c * 0.64 * Real.exp (y * c)) := by ring
        _ ≤ dm2 * (c * 0.64 * Real.exp (y * c)) := mul_le_mul_of_nonneg_right hdm12 hfac
        _ = dm2 * c * 0.64 * Real.exp (y * c) := by ring
    exact_mod_cast jsRound_mono inner

/-- Witness for C8 at `restHR = 60`, `maxHR = 190`, duration 60 min,
average heart rates 120 and 150. -/
theorem calculateTRIMP_monotone_witness :
    calculateTRIMP 60 120 60 190 Gender.male ≤ calculateTRIMP 60 150 60 190 Gender.male :=
  (calculateTRIMP_monotone Gender.male 60 190 (by norm_num) (by norm_num)).1
    60 120 150 (by norm_num) (by norm_num) (by norm_num)

/-! ### C2: `getFitnessTrend` -/

/-- Counterexample for C2: three entries with ctl 1, 2, 5 and `N = 7`. The
index `N` positions back from the last entry is out of range
(`3 - 1 - 7 < 0`), so the claim predicts 0, but the source clamps the index
to the first entry and returns `5 - 1 = 4`. -/
theorem getFitnessTrend_cex :
    getFitnessTrend [⟨0, 1, 0, 0, 0⟩, ⟨1, 2, 0, 0, 0⟩, ⟨2, 5, 0, 0, 0⟩] 7 = 4 ∧
    ((3 : ℤ) - 1 - 7 < 0) := by
  refine ⟨?_, by norm_num⟩
  unfold getFitnessTrend
  norm_num [List.getLast?, List.getLast, round1, jsRound]

/-- C2 (amended): with at least 2 entries, `getFitnessTrend` returns the
difference between the last entry's ctl and the ctl of the entry at index
`max 0 (length − 1 − N)` — the index clamps to the first entry when `N` is
out of range — rounded to one decimal place; with fewer than 2 entries it
returns 0. -/
theorem getFitnessTrend_clamped (metrics : List FitnessMetrics) (days : ℕ)
    (h : 2 ≤ metrics.length) (r p : FitnessMetrics)
    (hr : metrics.getLast? = some r)
    (hp : metrics[metrics.length - 1 - days]? = some p) :
    getFitnessTrend metrics days = round1 (r.ctl - p.ctl) := by
  unfold getFitnessTrend
  rw [if_neg (by omega), hr, hp]

/-- Witness for the amended C2 at a concrete two-entry list with `N = 5`
(out of range, clamping to the first entry). -/
theorem getFitnessTrend_clamped_witness :
    getFitnessTrend [⟨0, 1, 0, 0, 0⟩, ⟨1, 3, 0, 0, 0⟩] 5 = round1 ((3 : ℝ) - 1) :=
  getFitnessTrend_clamped [⟨0, 1, 0, 0, 0⟩, ⟨1, 3, 0, 0, 0⟩] 5 (by norm_num)
    ⟨1, 3, 0, 0, 0⟩ ⟨0, 1, 0, 0, 0⟩ (by rfl) (by rfl)

/-! ### C7: fetch failure degrades to the synchronous result -/

theorem estStep_no_streams (jsPow : ℚ → ℚ → ℚ) :
    estStep jsPow [] = syncStep jsPow := by
  funext d st a
  simp [estStep, hasStreamFor]

theorem syncStep_fs (jsPow : ℚ → ℚ → ℚ) (d : ℕ) (st : BestState) (a : Activity)
    (h : st.fs = false) : (syncStep jsPow d st a).fs = false := by
  unfold syncStep
  split
  · split
    · rfl
    · exact h
  · exact h

theorem foldl_syncStep_fs (jsPow : ℚ → ℚ → ℚ) (d : ℕ) (xs : List Activity)
    (st : BestState) (h : st.fs = false) :
    (xs.foldl (syncStep jsPow d) st).fs = false := by
  induction xs generalizing st with
  | nil => exact h
  | cons a xs ih => exact ih _ (syncStep_fs _ _ _ _ h)

theorem mkPoint_eq_mkPointSync (iv : Interval) (st : BestState) (h : st.fs = false) :
    mkPoint iv st = mkPointSync iv st := by
  unfold mkPoint mkPointSync
  rw [h]

/-- C7: when the stream fetch throws (`fetch = none`), `calculatePowerCurve`
returns a curve whose points equal those of `calculatePowerCurveSync` on the
same activities and period label. -/
theorem powerCurve_fetch_failure_degrades (jsPow : ℚ → ℚ → ℚ)
    (activities : List Activity) (periodLabel : String) :
    (calculatePowerCurve jsPow activities none periodLabel).points =
      (calculatePowerCurveSync jsPow activities periodLabel).points := by
  simp only [calculatePowerCurve, calculatePowerCurveSync]
  by_cases hempty : (cyclingWithPower activities).isEmpty
  · rw [if_pos hempty]
    rw [List.isEmpty_iff] at hempty
    rw [hempty]
    simp [mkPointSync]
  · rw [if_neg hempty]
    simp only [Option.getD_none, List.foldl_nil, estStep_no_streams]
    apply List.filterMap_congr
    intro iv _
    exact mkPoint_eq_mkPointSync iv _ (foldl_syncStep_fs _ _ _ _ rfl)

/-! ### C4: `calculateFitnessMetrics` covers the full calendar range -/

theorem fitnessLoop_map_date (lookup : ℕ → ℝ) (cd ad : ℝ) (ctl atl : ℝ) (days : List ℕ) :
    (fitnessLoop lookup cd ad ctl atl days).map (fun e => e.date) = days := by
  induction days generalizing ctl atl with
  | nil => rfl
  | cons d ds ih =>
    unfold fitnessLoop
    simp only [List.map_cons, ih]

theorem fitnessLoop_load (lookup : ℕ → ℝ) (cd ad : ℝ) (ctl atl : ℝ) (days : List ℕ) :
    ∀ e ∈ fitnessLoop lookup cd ad ctl atl days, e.load = lookup e.date := by
  induction days generalizing ctl atl with
  | nil => intro e he; cases he
  | cons d ds ih =>
    intro e he
    unfold fitnessLoop at he
    rcases List.mem_cons.mp he with h | h
    · rw [h]
    · exact ih _ _ e h

theorem pairwise_date_le_getLast {l : List DailyTrainingLoad}
    (hp : List.Pairwise (fun a b => a.date ≤ b.date) l) (h : l ≠ []) :
    ∀ x ∈ l, x.date ≤ (l.getLast h).date := by
  induction l with
  | nil => cases h rfl
  | cons a t ih =>
    intro x hx
    cases t with
    | nil =>
      rcases List.mem_singleton.mp hx with rfl
      exact le_refl _
    | cons b t' =>
      rw [List.getLast_cons (by simp)]
      rcases List.mem_cons.mp hx with rfl | hx'
      · exact le_trans (le_refl x.date)
          ((List.pairwise_cons.mp hp).1 _ (List.getLast_mem (by simp : (b :: t') ≠ [])))
      · exact ih (List.pairwise_cons.mp hp).2 (by simp) x hx'

/-- C4: for a non-empty load series with earliest date `dmin` and latest date
`dmax`, `calculateFitnessMetrics` emits exactly one entry per calendar day of
the inclusive range `[dmin, dmax]`, in strictly ascending date order
(`List.range'`), and every entry on a day with no input load has `load = 0`. -/
theorem calculateFitnessMetrics_calendar (loads : List DailyTrainingLoad)
    (cfg : FitnessModelConfig) (dmin dmax : ℕ)
    (hmin : dmin ∈ loads.map (fun l => l.date))
    (hmax : dmax ∈ loads.map (fun l => l.date))
    (hbound : ∀ d ∈ loads.map (fun l => l.date), dmin ≤ d ∧ d ≤ dmax) :
    (calculateFitnessMetrics loads cfg).map (fun e => e.date) =
      List.range' dmin (dmax + 1 - dmin) ∧
    ∀ e ∈ calculateFitnessMetrics loads cfg,
      e.date ∉ loads.map (fun l => l.date) → e.load = 0 := by
  have htrans : ∀ (a b c : DailyTrainingLoad), decide (a.date ≤ b.date) = true →
      decide (b.date ≤ c.date) = true → decide (a.date ≤ c.date) = true := by
    intro a b c
    simp only [decide_eq_true_eq]
    omega
  have htotal : ∀ (a b : DailyTrainingLoad),
      (decide (a.date ≤ b.date) || decide (b.date ≤ a.date)) = true := by
    intro a b
    simp only [Bool.or_eq_true, decide_eq_true_eq]
    omega
  have hperm := List.mergeSort_perm loads (fun a b => decide (a.date ≤ b.date))
  have hsorted := (List.sorted_mergeSort htrans htotal loads).imp
    (fun {a b} h => of_decide_eq_true h)
  cases hs : loads.mergeSort (fun a b => decide (a.date ≤ b.date)) with
  | nil =>
    rw [hs] at hperm
    have : loads = [] := (hperm.symm).eq_nil
    rw [this] at hmin
    cases hmin
  | cons first rest =>
    rw [hs] at hperm hsorted
    have hmem_iff : ∀ x, x ∈ first :: rest ↔ x ∈ loads := fun x => hperm.mem_iff
    -- the head is a minimal element, the last a maximal one
    have hfirst_le : ∀ x ∈ first :: rest, first.date ≤ x.date := by
      intro x hx
      rcases List.mem_cons.mp hx with rfl | hx'
      · exact le_refl _
      · exact (List.pairwise_cons.mp hsorted).1 _ hx'
    have hne : (first :: rest) ≠ [] := by simp
    have hlast_ge := pairwise_date_le_getLast hsorted hne
    have hlast_mem : (first :: rest).getLast hne ∈ loads :=
      (hmem_iff _).mp (List.getLast_mem hne)
    -- identify dmin with the head date and dmax with the last date
    have hdmin : first.date = dmin := by
      rcases List.mem_map.mp hmin with ⟨x, hxmem, hxdate⟩
      have h1 : first.date ≤ dmin := hxdate ▸ hfirst_le x ((hmem_iff x).mpr hxmem)
      have h2 : dmin ≤ first.date :=
        (hbound _ (List.mem_map.mpr ⟨first, (hmem_iff first).mp (by simp), rfl⟩)).1
      omega
    have hdmax : ((first :: rest).getLast hne).date = dmax := by
      rcases List.mem_map.mp hmax with ⟨x, hxmem, hxdate⟩
      have h1 : dmax ≤ ((first :: rest).getLast hne).date :=
        hxdate ▸ hlast_ge x ((hmem_iff x).mpr hxmem)
      have h2 : ((first :: rest).getLast hne).date ≤ dmax :=
        (hbound _ (List.mem_map.mpr ⟨_, hlast_mem, rfl⟩)).2
      omega
    have hgetLast? : (first :: rest).getLast?.getD first = (first :: rest).getLast hne := by
      rw [List.getLast?_eq_getLast _ hne]
      rfl
    constructor
    · simp only [calculateFitnessMetrics, hs, hgetLast?, hdmax, hdmin,
        fitnessLoop_map_date]
      rw [List.range'_eq_map_range]
    · intro e he hnotin
      have hload := by
        have he' := he
        simp only [calculateFitnessMetrics, hs] at he'
        exact fitnessLoop_load _ _ _ _ _ _ e he'
      rw [hload]
      unfold lookupLoad
      have hfilter : (first :: rest).filter (fun l => l.date == e.date) = [] := by
        rw [List.filter_eq_nil_iff]
        intro x hx
        simp only [beq_iff_eq]
        intro hxe
        exact hnotin (List.mem_map.mpr ⟨x, (hmem_iff x).mp hx, hxe⟩)
      rw [hfilter]
      rfl

/-- Witness for C4: loads on days 1 and 5 only produce exactly the five
calendar days 1–5. -/
theorem calculateFitnessMetrics_calendar_witness :
    (calculateFitnessMetrics [⟨1, (50 : ℝ)⟩, ⟨5, 30⟩] ⟨42, 7, 0, 0⟩).map (fun e => e.date) =
      List.range' 1 5 :=
  (calculateFitnessMetrics_calendar [⟨1, (50 : ℝ)⟩, ⟨5, 30⟩] ⟨42, 7, 0, 0⟩ 1 5
    (by simp) (by simp) (by intro d hd; simp at hd; omega)).1

/-! ### C5: `activitiesToDailyLoads` -/

theorem calculateTSS_nonneg (d np ftp : ℝ) : 0 ≤ calculateTSS d np ftp := by
  unfold calculateTSS
  split
  · exact le_refl 0
  · rename_i hguard
    push_neg at hguard
    have hraw : d * np * (np / ftp) / (ftp * 3600) * 100 = d * np ^ 2 * 100 / (ftp ^ 2 * 3600) := by
      field_simp
      ring
    have : 0 ≤ d * np * (np / ftp) / (ftp * 3600) * 100 := by
      rw [hraw]
      have h1 : 0 < ftp := hguard.1
      have h2 : 0 < d := hguard.2
      positivity
    exact_mod_cast jsRound_nonneg this

theorem calculateTRIMP_nonneg (dm avg rhr mhr : ℝ) (g : Gender) (h : 0 ≤ dm) :
    0 ≤ calculateTRIMP dm avg rhr mhr g := by
  unfold calculateTRIMP
  split
  · exact le_refl 0
  · dsimp only
    have hc : (0 : ℝ) ≤ max 0 (min 1 ((avg - rhr) / (mhr - rhr))) := le_max_left _ _
    have : 0 ≤ dm * max 0 (min 1 ((avg - rhr) / (mhr - rhr))) * 0.64 *
        Real.exp ((if g = Gender.male then (1.92 : ℝ) else 1.67) *
          max 0 (min 1 ((avg - rhr) / (mhr - rhr)))) := by
      have := (Real.exp_pos ((if g = Gender.male then (1.92 : ℝ) else 1.67) *
        max 0 (min 1 ((avg - rhr) / (mhr - rhr))))).le
      have h64 : (0 : ℝ) ≤ 0.64 := by norm_num
      exact mul_nonneg (mul_nonneg (mul_nonneg h hc) h64) this
    exact_mod_cast jsRound_nonneg this

theorem estimateLoadFromSufferScore_nonneg (s : Option ℝ) (dm : ℝ) (h : 0 ≤ dm) :
    0 ≤ estimateLoadFromSufferScore s dm := by
  unfold estimateLoadFromSufferScore
  split
  · rename_i hcond
    exact hcond.2.le
  · have : (0 : ℝ) ≤ dm * 0.5 := by positivity
    exact_mod_cast jsRound_nonneg this

theorem activityLoad_nonneg (opts : LoadOptions) (a : ActivityForLoad) :
    0 ≤ activityLoad opts a := by
  unfold activityLoad
  have hdm : (0 : ℝ) ≤ (a.moving_time.getD 0 : ℕ) / 60 := by positivity
  split
  · exact calculateTSS_nonneg _ _ _
  · split
    · exact calculateTRIMP_nonneg _ _ _ _ _ hdm
    · exact estimateLoadFromSufferScore_nonneg _ _ hdm

/-- C5 (amended): `activitiesToDailyLoads` emits one entry per distinct
activity day, strictly ascending by date; each entry's load is the sum of
that day's per-activity loads; every activity day is covered; every
per-activity contribution is non-negative; and the per-activity load follows
the strict tier order power-TSS → heart-rate TRIMP → positive suffer score →
`round(durationMinutes × 0.5)`, the last tier being rounded to the nearest
integer rather than the claim's unrounded `durationMinutes × 0.5` (a field is
"present" when it is JS-truthy, i.e. non-null and non-zero). -/
theorem activitiesToDailyLoads_spec (acts : List ActivityForLoad) (opts : LoadOptions) :
    (activitiesToDailyLoads acts opts).Pairwise (fun x y => x.date < y.date) ∧
    (∀ e ∈ activitiesToDailyLoads acts opts,
      e.load = ((acts.filter (fun a => a.start_date == e.date)).map (activityLoad opts)).sum ∧
      e.date ∈ acts.map (fun a => a.start_date)) ∧
    (∀ a ∈ acts, ∃ e ∈ activitiesToDailyLoads acts opts, e.date = a.start_date) ∧
    (∀ a, 0 ≤ activityLoad opts a) ∧
    (∀ a, truthy (jsOr a.weighted_average_watts a.average_watts) = true →
      activityLoad opts a = calculateTSS ((a.moving_time.getD 0 : ℕ) : ℝ)
        ((jsOr a.weighted_average_watts a.average_watts).getD 0) opts.ftp) ∧
    (∀ a, truthy (jsOr a.weighted_average_watts a.average_watts) = false →
      truthy a.average_heartrate = true →
      activityLoad opts a = calculateTRIMP ((a.moving_time.getD 0 : ℕ) / 60)
        (a.average_heartrate.getD 0) opts.restingHeartRate opts.maxHeartRate opts.gender) ∧
    (∀ a, truthy (jsOr a.weighted_average_watts a.average_watts) = false →
      truthy a.average_heartrate = false →
      activityLoad opts a =
        estimateLoadFromSufferScore a.suffer_score ((a.moving_time.getD 0 : ℕ) / 60)) ∧
    (∀ a, truthy (jsOr a.weighted_average_watts a.average_watts) = false →
      truthy a.average_heartrate = false →
      truthy a.suffer_score = true → 0 < a.suffer_score.getD 0 →
      activityLoad opts a = a.suffer_score.getD 0) ∧
    (∀ a, truthy (jsOr a.weighted_average_watts a.average_watts) = false →
      truthy a.average_heartrate = false →
      ¬ (truthy a.suffer_score = true ∧ 0 < a.suffer_score.getD 0) →
      activityLoad opts a =
        (jsRound (((a.moving_time.getD 0 : ℕ) : ℝ) / 60 * 0.5) : ℝ)) := by
  have htrans : ∀ (a b c : DailyTrainingLoad), decide (a.date ≤ b.date) = true →
      decide (b.date ≤ c.date) = true → decide (a.date ≤ c.date) = true := by
    intro a b c
    simp only [decide_eq_true_eq]
    omega
  have htotal : ∀ (a b : DailyTrainingLoad),
      (decide (a.date ≤ b.date) || decide (b.date ≤ a.date)) = true := by
    intro a b
    simp only [Bool.or_eq_true, decide_eq_true_eq]
    omega
  have hperm : (activitiesToDailyLoads acts opts).Perm
      (((acts.map (fun a => a.start_date)).dedup).map (fun d =>
        (⟨d, ((acts.filter (fun a => a.start_date == d)).map (activityLoad opts)).sum⟩ :
          DailyTrainingLoad))) := by
    unfold activitiesToDailyLoads
    exact List.mergeSort_perm _ _
  have hsorted : (activitiesToDailyLoads acts opts).Pairwise (fun x y => x.date ≤ y.date) := by
    unfold activitiesToDailyLoads
    exact (List.sorted_mergeSort htrans htotal _).imp (fun {a b} h => of_decide_eq_true h)
  have hmapdate : List.Perm ((activitiesToDailyLoads acts opts).map (fun e => e.date))
      ((acts.map (fun a => a.start_date)).dedup) := by
    have h2 := hperm.map (fun e => e.date)
    rw [List.map_map] at h2
    have hid : ((fun (e : DailyTrainingLoad) => e.date) ∘ (fun d =>
        (⟨d, ((acts.filter (fun a => a.start_date == d)).map (activityLoad opts)).sum⟩ :
          DailyTrainingLoad))) = id := rfl
    rw [hid, List.map_id] at h2
    exact h2
  refine ⟨?_, ?_, ?_, fun a => activityLoad_nonneg opts a, ?_, ?_, ?_, ?_, ?_⟩
  · have hnodup : ((activitiesToDailyLoads acts opts).map (fun e => e.date)).Nodup :=
      (hmapdate.nodup_iff).mpr (List.nodup_dedup _)
    have hneq : (activitiesToDailyLoads acts opts).Pairwise (fun x y => x.date ≠ y.date) :=
      List.pairwise_map.mp hnodup
    exact (hsorted.and hneq).imp (fun {a b} h => lt_of_le_of_ne h.1 h.2)
  · intro e he
    have he' := hperm.mem_iff.mp he
    rcases List.mem_map.mp he' with ⟨d, hd, hde⟩
    constructor
    · rw [← hde]
    · rw [← hde]
      exact List.mem_dedup.mp hd
  · intro a ha
    have hd : a.start_date ∈ (acts.map (fun x => x.start_date)).dedup :=
      List.mem_dedup.mpr (List.mem_map.mpr ⟨a, ha, rfl⟩)
    refine ⟨⟨a.start_date,
      ((acts.filter (fun x => x.start_date == a.start_date)).map (activityLoad opts)).sum⟩,
      ?_, rfl⟩
    exact hperm.mem_iff.mpr (List.mem_map.mpr ⟨a.start_date, hd, rfl⟩)
  · intro a h
    simp only [activityLoad, h]
    rfl
  · intro a h1 h2
    simp only [activityLoad, h1, h2]
    rfl
  · intro a h1 h2
    simp only [activityLoad, h1, h2]
    rfl
  · intro a h1 h2 h3 h4
    have hstep : activityLoad opts a =
        estimateLoadFromSufferScore a.suffer_score ((a.moving_time.getD 0 : ℕ) / 60) := by
      simp only [activityLoad, h1, h2]
      rfl
    rw [hstep]
    unfold estimateLoadFromSufferScore
    rw [if_pos ⟨h3, h4⟩]
  · intro a h1 h2 h3
    have hstep : activityLoad opts a =
        estimateLoadFromSufferScore a.suffer_score ((a.moving_time.getD 0 : ℕ) / 60) := by
      simp only [activityLoad, h1, h2]
      rfl
    rw [hstep]
    unfold estimateLoadFromSufferScore
    rw [if_neg h3]

/-- Witness for C5: a single suffer-score-only activity on day 3 yields an
entry for day 3. -/
theorem activitiesToDailyLoads_spec_witness :
    ∃ e ∈ activitiesToDailyLoads [⟨3, some 600, none, some 50, none, none⟩]
      ⟨60, 190, 200, Gender.male⟩, e.date = 3 :=
  (activitiesToDailyLoads_spec [⟨3, some 600, none, some 50, none, none⟩]
    ⟨60, 190, 200, Gender.male⟩).2.2.1 ⟨3, some 600, none, some 50, none, none⟩ (by simp)

/-- Counterexample for C5: a sensor-less activity moving for 90 seconds
contributes `round(1.5 × 0.5) = 1`, not the claim's unrounded
`durationMinutes × 0.5 = 0.75` — the duration-only fallback is rounded to the
nearest integer (`Math.round(durationMinutes * 0.5)` in the source). -/
theorem activitiesToDailyLoads_rounding_cex :
    activitiesToDailyLoads [⟨3, some 90, none, none, none, none⟩]
      ⟨60, 190, 200, Gender.male⟩ = [⟨3, 1⟩] ∧
    (1 : ℝ) ≠ ((90 : ℕ) : ℝ) / 60 * 0.5 := by
  constructor
  · have hload : activityLoad ⟨60, 190, 200, Gender.male⟩
        ⟨3, some 90, none, none, none, none⟩ = 1 := by
      unfold activityLoad estimateLoadFromSufferScore
      norm_num [truthy, jsOr, jsRound]
    have hred : activitiesToDailyLoads [⟨3, some 90, none, none, none, none⟩]
        ⟨60, 190, 200, Gender.male⟩ =
      ([⟨3, activityLoad ⟨60, 190, 200, Gender.male⟩
          ⟨3, some 90, none, none, none, none⟩ + 0⟩] :
        List DailyTrainingLoad).mergeSort (fun x y => decide (x.date ≤ y.date)) := rfl
    rw [hred, List.mergeSort_singleton, hload]
    norm_num
  · norm_num

/-! ### C6: sliding-window correctness on a constant stream -/

theorem constTimes_length (N : ℕ) : (constTimes N).length = N + 1 := by
  unfold constTimes
  rw [List.length_map, List.length_range]

theorem constPowers_length (N P : ℕ) : (constPowers N P).length = N + 1 := by
  simp [constPowers]

theorem constTimes_getElem? (N i : ℕ) (h : i ≤ N) :
    (constTimes N)[i]? = some (i : ℚ) := by
  unfold constTimes
  rw [List.getElem?_map, List.getElem?_range (by omega)]
  rfl

theorem constPowers_getElem? (N P i : ℕ) (h : i ≤ N) :
    (constPowers N P)[i]? = some (some (P : ℚ)) := by
  unfold constPowers
  rw [List.getElem?_replicate, if_pos (by omega)]

theorem advanceStart_le (t : List ℚ) (tgt : ℚ) (we : ℕ) :
    ∀ n ws, we - ws ≤ n → ws ≤ we → advanceStart t tgt we ws ≤ we := by
  intro n
  induction n with
  | zero =>
    intro ws hn hws
    rw [advanceStart, if_neg (by omega)]
    exact hws
  | succ n ih =>
    intro ws hn hws
    rw [advanceStart]
    by_cases hlt : ws < we
    · rw [if_pos hlt]
      cases hget : t[ws]? with
      | none => exact hws
      | some st =>
        show (if tgt ≤ st then ws else advanceStart t tgt we (ws + 1)) ≤ we
        by_cases hle : tgt ≤ st
        · rw [if_pos hle]
          exact hws
        · rw [if_neg hle]
          exact ih (ws + 1) (by omega) (by omega)
    · rw [if_neg hlt]
      exact hws

theorem advanceStart_start_zero (t : List ℚ) (tgt : ℚ) (we : ℕ)
    (h : ∀ f, t[0]? = some f → tgt ≤ f) : advanceStart t tgt we 0 = 0 := by
  rw [advanceStart]
  by_cases hlt : 0 < we
  · rw [if_pos hlt]
    cases hget : t[0]? with
    | none => rfl
    | some f =>
      show (if tgt ≤ f then 0 else advanceStart t tgt we (0 + 1)) = 0
      rw [if_pos (h f hget)]
  · rw [if_neg hlt]

theorem windowStats_const (p : List (Option ℚ)) (P : ℕ) :
    ∀ k i, (∀ j, j < k → p[i + j]? = some (some (P : ℚ))) →
      windowStats p i k = ((k : ℚ) * (P : ℚ), k) := by
  intro k
  induction k with
  | zero =>
    intro i _
    unfold windowStats
    norm_num
  | succ k ih =>
    intro i h
    have hrest : windowStats p (i + 1) k = ((k : ℚ) * (P : ℚ), k) := by
      apply ih
      intro j hj
      have := h (j + 1) (by omega)
      rwa [show i + (j + 1) = i + 1 + j by omega] at this
    have hi : p[i]? = some (some (P : ℚ)) := by
      have := h 0 (by omega)
      rwa [Nat.add_zero] at this
    unfold windowStats
    rw [hi, hrest]
    show (if 0 ≤ (P : ℚ) then
        (((k : ℚ) * (P : ℚ), (k : ℕ)).1 + (P : ℚ), ((k : ℚ) * (P : ℚ), (k : ℕ)).2 + 1)
      else ((k : ℚ) * (P : ℚ), (k : ℕ))) = (((k : ℕ) + 1 : ℕ) * (P : ℚ), (k : ℕ) + 1)
    rw [if_pos (by positivity)]
    dsimp only
    rw [show ((k + 1 : ℕ) : ℚ) * (P : ℚ) = (k : ℚ) * (P : ℚ) + (P : ℚ) by push_cast; ring]

theorem bestLoop_const (N P d : ℕ) (hP : 0 < P) (hd : 0 < d) (hdN : d ≤ N) :
    ∀ n we ws best, N + 1 - we ≤ n → ws ≤ we →
      (best = (P : ℚ) ∨ (best = 0 ∧ we ≤ d ∧ ws = 0)) →
      bestLoop (constTimes N) (constPowers N P) (d : ℚ) we ws best = (P : ℚ) := by
  have hstats : ∀ lo hi, lo ≤ hi → hi ≤ N →
      windowStats (constPowers N P) lo (hi + 1 - lo) =
        (((hi + 1 - lo : ℕ) : ℚ) * (P : ℚ), hi + 1 - lo) := by
    intro lo hi hlohi hhiN
    apply windowStats_const
    intro j hj
    exact constPowers_getElem? N P (lo + j) (by omega)
  have havg : ∀ (c : ℕ), 0 < c → ((c : ℚ) * (P : ℚ)) / (c : ℚ) = (P : ℚ) := by
    intro c hc
    have hc0 : (c : ℚ) ≠ 0 := by positivity
    rw [mul_comm, mul_div_assoc, div_self hc0, mul_one]
  intro n
  induction n with
  | zero =>
    intro we ws best hn hws hinv
    have hnot : ¬ we < (constTimes N).length := by
      rw [constTimes_length]
      omega
    rw [bestLoop, if_neg hnot]
    rcases hinv with h | ⟨_, hwd, _⟩
    · exact h
    · omega
  | succ n ih =>
    intro we ws best hn hws hinv
    by_cases hwe : we < (constTimes N).length
    · have hweN : we ≤ N := by
        rw [constTimes_length] at hwe
        omega
      rw [bestLoop, if_pos hwe, constTimes_getElem? N we hweN]
      dsimp only
      rcases hinv with hbP | ⟨hb0, hwd, hws0⟩
      · -- best is already P; any further window has average exactly P
        subst hbP
        set ws' := advanceStart (constTimes N) ((we : ℚ) - (d : ℚ)) we ws with hwsdef
        have hwsle : ws' ≤ we := by
          rw [hwsdef]
          exact advanceStart_le (constTimes N) ((we : ℚ) - (d : ℚ)) we (we - ws) ws
            (le_refl _) hws
        rw [constTimes_getElem? N ws' (by omega)]
        dsimp only
        by_cases hq : (d : ℚ) * (9 / 10) ≤ (we : ℚ) - (ws' : ℚ)
        · rw [if_pos hq, hstats ws' we hwsle hweN]
          dsimp only
          rw [havg (we + 1 - ws') (by omega)]
          rw [if_neg (fun hcon => absurd hcon.2 (lt_irrefl _))]
          exact ih (we + 1) ws' _ (by omega) (by omega) (Or.inl rfl)
        · rw [if_neg hq]
          exact ih (we + 1) ws' _ (by omega) (by omega) (Or.inl rfl)
      · -- best = 0: the start pointer is still 0 and we are within the first d samples
        subst hws0
        subst hb0
        have hzero : advanceStart (constTimes N) ((we : ℚ) - (d : ℚ)) we 0 = 0 := by
          apply advanceStart_start_zero
          intro f hf
          rw [constTimes_getElem? N 0 (by omega)] at hf
          have hf' : f = ((0 : ℕ) : ℚ) := by
            injection hf.symm
          rw [hf']
          have hwd' : (we : ℚ) ≤ (d : ℚ) := by exact_mod_cast hwd
          push_cast
          linarith
        rw [hzero, constTimes_getElem? N 0 (by omega)]
        dsimp only
        simp only [Nat.cast_zero, sub_zero, Nat.sub_zero]
        have hstats0 : windowStats (constPowers N P) 0 (we + 1) =
            (((we + 1 : ℕ) : ℚ) * (P : ℚ), we + 1) := by
          have h := hstats 0 we (by omega) hweN
          simpa using h
        by_cases hq : (d : ℚ) * (9 / 10) ≤ (we : ℚ)
        · rw [if_pos hq, hstats0]
          dsimp only
          rw [havg (we + 1) (by omega)]
          rw [if_pos ⟨by omega, by exact_mod_cast hP⟩]
          exact ih (we + 1) 0 _ (by omega) (by omega) (Or.inl rfl)
        · rw [if_neg hq]
          have hwe1d : we + 1 ≤ d := by
            push_neg at hq
            have hdq : (d : ℚ) * (9 / 10) < (d : ℚ) := by
              have h0d : (0 : ℚ) < (d : ℚ) := by exact_mod_cast hd
              linarith
            have hlt : (we : ℚ) < (d : ℚ) := lt_trans hq hdq
            have : we < d := by exact_mod_cast hlt
            omega
          exact ih (we + 1) 0 0 (by omega) (by omega) (Or.inr ⟨rfl, hwe1d, rfl⟩)
    · rw [bestLoop, if_neg hwe]
      rw [constTimes_length] at hwe
      rcases hinv with h | ⟨_, hwd, _⟩
      · exact h
      · omega

theorem calculateBestPowerForDuration_const (N P d : ℕ) (hP : 0 < P) (hd : 0 < d)
    (hdN : d ≤ N) :
    calculateBestPowerForDuration (constTimes N) (constPowers N P) (d : ℚ) =
      some (P : ℤ) := by
  unfold calculateBestPowerForDuration
  have hnot : ¬ ((constTimes N).length < 2 ∨ (constPowers N P).length < 2) := by
    rw [constTimes_length, constPowers_length]
    omega
  rw [if_neg hnot]
  rw [constTimes_length]
  simp only [Nat.add_sub_cancel]
  rw [constTimes_getElem? N 0 (by omega), constTimes_getElem? N N (le_refl N)]
  dsimp only
  simp only [Nat.cast_zero, sub_zero]
  rw [if_neg (by
    have h : (d : ℚ) ≤ (N : ℚ) := by exact_mod_cast hdN
    exact not_lt.mpr h)]
  rw [bestLoop_const N P d hP hd hdN (N + 1) 0 0 0 (by omega) (by omega)
    (Or.inr ⟨rfl, by omega, rfl⟩)]
  rw [if_pos (by exact_mod_cast hP)]
  have hround : jsRound ((P : ℕ) : ℚ) = (P : ℤ) := by
    have hcast : (((P : ℤ)) : ℚ) = ((P : ℕ) : ℚ) := by push_cast; ring
    rw [← hcast, jsRound_intCast]
  rw [hround]

/-- C6: for a constant-power stream spanning `N` seconds at `P` watts
(`P` a positive integer, one sample per second), the sliding-window search
returns exactly `P` for every standard duration at most `N`. -/
theorem constantStream_bestPower (N P : ℕ) (hP : 0 < P) (iv : Interval)
    (hiv : iv ∈ POWER_CURVE_INTERVALS) (hle : iv.seconds ≤ N) :
    calculateBestPowerForDuration (constTimes N) (constPowers N P)
      (iv.seconds : ℚ) = some (P : ℤ) := by
  have hpos : 0 < iv.seconds := by
    fin_cases hiv <;> norm_num
  exact calculateBestPowerForDuration_const N P iv.seconds hP hpos hle

/-- Witness for C6: a 10-second constant stream at 200 W yields exactly 200
for the 5 s standard duration. -/
theorem constantStream_bestPower_witness :
    calculateBestPowerForDuration (constTimes 10) (constPowers 10 200)
      (((⟨5, "5s"⟩ : Interval).seconds : ℕ) : ℚ) = some 200 :=
  constantStream_bestPower 10 200 (by norm_num) ⟨5, "5s"⟩ (by decide) (by norm_num)

/-! ### C3: emission conditions for power curve points -/

theorem estimate_some_duration (jsPow : ℚ → ℚ → ℚ) (a : Activity) (d : ℕ) (v : ℤ)
    (h : estimateBestPowerForDuration jsPow a d = some v) :
    d ≤ a.moving_time.getD 0 := by
  unfold estimateBestPowerForDuration at h
  dsimp only at h
  by_cases h1 : truthy (jsOr a.weighted_average_watts a.average_watts) = true
  · rw [if_pos h1] at h
    by_cases h2 : a.moving_time.getD 0 < d
    · rw [if_pos h2] at h
      cases h
    · omega
  · rw [if_neg h1] at h
    cases h

theorem calcBest_some_span (t : List ℚ) (p : List (Option ℚ)) (target : ℚ) (v : ℤ)
    (h : calculateBestPowerForDuration t p target = some v) :
    ∃ f l, t.head? = some f ∧ t.getLast? = some l ∧ target ≤ l - f := by
  unfold calculateBestPowerForDuration at h
  by_cases h1 : t.length < 2 ∨ p.length < 2
  · rw [if_pos h1] at h
    cases h
  · rw [if_neg h1] at h
    cases hf : t[0]? with
    | none =>
      rw [hf] at h
      cases hl : t[t.length - 1]? <;> rw [hl] at h <;> cases h
    | some f =>
      rw [hf] at h
      cases hl : t[t.length - 1]? with
      | none =>
        rw [hl] at h
        cases h
      | some l =>
        rw [hl] at h
        dsimp only at h
        by_cases h2 : l - f < target
        · rw [if_pos h2] at h
          cases h
        · refine ⟨f, l, ?_, ?_, by linarith [not_lt.mp h2]⟩
          · rw [List.head?_eq_getElem?]
            exact hf
          · rw [List.getLast?_eq_getElem?]
            exact hl

theorem foldl_syncStep_pos (jsPow : ℚ → ℚ → ℚ) (d : ℕ) (Q : Prop) :
    ∀ (xs : List Activity) (st : BestState),
      (0 < st.bp → Q) →
      (∀ a ∈ xs, ∀ v, estimateBestPowerForDuration jsPow a d = some v → Q) →
      0 < (xs.foldl (syncStep jsPow d) st).bp → Q := by
  intro xs
  induction xs with
  | nil =>
    intro st h0 _ h
    exact h0 h
  | cons a xs ih =>
    intro st h0 hup hpos
    rw [List.foldl_cons] at hpos
    refine ih (syncStep jsPow d st a) ?_ (fun b hb v hv => hup b (List.mem_cons_of_mem _ hb) v hv) hpos
    intro hs
    unfold syncStep at hs
    cases hest : estimateBestPowerForDuration jsPow a d with
    | none =>
      rw [hest] at hs
      exact h0 hs
    | some v =>
      exact hup a (List.mem_cons_self a xs) v hest

theorem foldl_streamStep_pos (cycling : List Activity) (d : ℕ) (Q : Prop) :
    ∀ (ss : List PowerStreamData) (st : BestState),
      (0 < st.bp → Q) →
      (∀ s ∈ ss, ∀ v,
        calculateBestPowerForDuration s.timeData s.powerData (d : ℚ) = some v → Q) →
      0 < (ss.foldl (streamStep cycling d) st).bp → Q := by
  intro ss
  induction ss with
  | nil =>
    intro st h0 _ h
    exact h0 h
  | cons s ss ih =>
    intro st h0 hup hpos
    rw [List.foldl_cons] at hpos
    refine ih (streamStep cycling d st s) ?_
      (fun r hr v hv => hup r (List.mem_cons_of_mem _ hr) v hv) hpos
    intro hs
    unfold streamStep at hs
    cases hbest : calculateBestPowerForDuration s.timeData s.powerData (d : ℚ) with
    | none =>
      rw [hbest] at hs
      exact h0 hs
    | some v =>
      exact hup s (List.mem_cons_self s ss) v hbest

theorem foldl_estStep_eq_filter (jsPow : ℚ → ℚ → ℚ) (streams : List PowerStreamData) (d : ℕ) :
    ∀ (xs : List Activity) (st : BestState),
      xs.foldl (estStep jsPow streams d) st =
        (xs.filter (fun a => !(hasStreamFor streams a.id))).foldl (syncStep jsPow d) st := by
  intro xs
  induction xs with
  | nil =>
    intro st
    rfl
  | cons a xs ih =>
    intro st
    rw [List.foldl_cons, List.filter_cons]
    cases hhs : hasStreamFor streams a.id with
    | true =>
      have he : estStep jsPow streams d st a = st := by
        unfold estStep
        rw [hhs]
        rfl
      rw [he, if_neg (by simp)]
      exact ih st
    | false =>
      have he : estStep jsPow streams d st a = syncStep jsPow d st a := by
        unfold estStep
        rw [hhs]
        rfl
      rw [he, if_pos (by simp), List.foldl_cons]
      exact ih (syncStep jsPow d st a)

theorem mkPoint_eq_some {iv : Interval} {st : BestState} {p : PowerCurvePoint}
    (h : mkPoint iv st = some p) :
    0 < st.bp ∧ p.duration = iv.seconds ∧ p.power = st.bp := by
  unfold mkPoint at h
  cases hact : st.act with
  | none =>
    rw [hact] at h
    cases h
  | some a =>
    rw [hact] at h
    dsimp only at h
    by_cases hbp : 0 < st.bp
    · rw [if_pos hbp] at h
      cases h
      exact ⟨hbp, rfl, rfl⟩
    · rw [if_neg hbp] at h
      cases h

theorem mkPointSync_eq_some {iv : Interval} {st : BestState} {p : PowerCurvePoint}
    (h : mkPointSync iv st = some p) :
    0 < st.bp ∧ p.duration = iv.seconds ∧ p.power = st.bp := by
  unfold mkPointSync at h
  cases hact : st.act with
  | none =>
    rw [hact] at h
    cases h
  | some a =>
    rw [hact] at h
    dsimp only at h
    by_cases hbp : 0 < st.bp
    · rw [if_pos hbp] at h
      cases h
      exact ⟨hbp, rfl, rfl⟩
    · rw [if_neg hbp] at h
      cases h

/-- C3 (amended): a point for duration `d` is emitted by the stream-augmented
computation only if some candidate activity's moving time is at least `d` or
some fetched stream's time span is at least `d`; the estimation-only
computation emits a point only if some candidate activity's moving time is at
least `d`. -/
theorem powerCurvePoint_emission (jsPow : ℚ → ℚ → ℚ) (activities : List Activity)
    (fetch : Option (List PowerStreamData)) (periodLabel : String) (p : PowerCurvePoint) :
    (p ∈ (calculatePowerCurve jsPow activities fetch periodLabel).points →
      (∃ a ∈ cyclingWithPower activities, p.duration ≤ a.moving_time.getD 0) ∨
      (∃ s ∈ fetch.getD [], ∃ f l, s.timeData.head? = some f ∧
        s.timeData.getLast? = some l ∧ (p.duration : ℚ) ≤ l - f)) ∧
    (p ∈ (calculatePowerCurveSync jsPow activities periodLabel).points →
      ∃ a ∈ cyclingWithPower activities, p.duration ≤ a.moving_time.getD 0) := by
  constructor
  · intro hp
    by_cases hempty : (cyclingWithPower activities).isEmpty
    · simp only [calculatePowerCurve, if_pos hempty] at hp
      exact absurd hp (List.not_mem_nil p)
    · simp only [calculatePowerCurve, if_neg hempty] at hp
      rcases List.mem_filterMap.mp hp with ⟨iv, hiv, hmk⟩
      obtain ⟨hbp, hdur, _⟩ := mkPoint_eq_some hmk
      rw [hdur]
      rw [foldl_estStep_eq_filter] at hbp
      refine foldl_syncStep_pos jsPow iv.seconds _ _ _ ?_ ?_ hbp
      · intro hs
        refine foldl_streamStep_pos _ iv.seconds _ _ _ ?_ ?_ hs
        · intro h0
          exact absurd h0 (lt_irrefl 0)
        · intro s hs' v hv
          right
          obtain ⟨f, l, hf, hl, hfl⟩ := calcBest_some_span _ _ _ _ hv
          exact ⟨s, hs', f, l, hf, hl, hfl⟩
      · intro a ha v hv
        left
        exact ⟨a, List.mem_of_mem_filter ha, estimate_some_duration jsPow a iv.seconds v hv⟩
  · intro hp
    simp only [calculatePowerCurveSync] at hp
    rcases List.mem_filterMap.mp hp with ⟨iv, hiv, hmk⟩
    obtain ⟨hbp, hdur, _⟩ := mkPointSync_eq_some hmk
    rw [hdur]
    refine foldl_syncStep_pos jsPow iv.seconds _ _ _ ?_ ?_ hbp
    · intro h0
      exact absurd h0 (lt_irrefl 0)
    · intro a ha v hv
      exact ⟨a, ha, estimate_some_duration jsPow a iv.seconds v hv⟩

/-! ### Concrete evaluations for the C1/C3 counterexamples -/

theorem calculateBestPowerForDuration_const_none (N P : ℕ) (hN : 1 ≤ N) (target : ℚ)
    (h : (N : ℚ) < target) :
    calculateBestPowerForDuration (constTimes N) (constPowers N P) target = none := by
  unfold calculateBestPowerForDuration
  have hnot : ¬ ((constTimes N).length < 2 ∨ (constPowers N P).length < 2) := by
    rw [constTimes_length, constPowers_length]
    omega
  rw [if_neg hnot, constTimes_length]
  simp only [Nat.add_sub_cancel]
  rw [constTimes_getElem? N 0 (by omega), constTimes_getElem? N N (le_refl N)]
  dsimp only
  simp only [Nat.cast_zero, sub_zero]
  rw [if_pos h]

theorem cexAct_cycling (mt : Option ℕ) : isCyclingActivity (cexAct mt) = true := by
  norm_num [isCyclingActivity, cexAct]

theorem cexAct_power (mt : Option ℕ) : hasPowerData (cexAct mt) = true := by
  norm_num [hasPowerData, cexAct, truthy]

theorem cexAct_cyclingWithPower (mt : Option ℕ) :
    cyclingWithPower [cexAct mt] = [cexAct mt] := by
  unfold cyclingWithPower
  rw [List.filter_cons, if_pos (by rw [cexAct_cycling, cexAct_power]; rfl)]
  rfl

theorem cex_estimate_five :
    estimateBestPowerForDuration jsPow0 (cexAct (some 5)) 5 = some 300 := by
  unfold estimateBestPowerForDuration cexAct
  norm_num [jsOr, truthy, jsRound]

theorem cex_estimate_none (t : ℕ) (ht : 5 < t) :
    estimateBestPowerForDuration jsPow0 (cexAct (some 5)) t = none := by
  unfold estimateBestPowerForDuration cexAct
  norm_num [jsOr, truthy, ht]

set_option maxHeartbeats 2000000 in
theorem cex_sync_points :
    (calculatePowerCurveSync jsPow0 [cexAct (some 5)] "All Time").points =
      [⟨5, "5s", 300, 1, "ride", "2024-01-01", false⟩] := by
  have h5 : syncStep jsPow0 5 ⟨0, none, false⟩ (cexAct (some 5)) =
      ⟨300, some (cexAct (some 5)), false⟩ := by
    unfold syncStep
    rw [cex_estimate_five]
    dsimp only
    rw [if_pos (by norm_num)]
  have hN : ∀ t : ℕ, 5 < t → syncStep jsPow0 t ⟨0, none, false⟩ (cexAct (some 5)) =
      ⟨0, none, false⟩ := by
    intro t ht
    unfold syncStep
    rw [cex_estimate_none t ht]
  simp only [calculatePowerCurveSync, cexAct_cyclingWithPower]
  unfold POWER_CURVE_INTERVALS
  simp only [List.filterMap_cons, List.filterMap_nil, List.foldl_cons, List.foldl_nil]
  rw [h5, hN 15 (by norm_num), hN 30 (by norm_num), hN 60 (by norm_num),
    hN 120 (by norm_num), hN 180 (by norm_num), hN 300 (by norm_num),
    hN 480 (by norm_num), hN 600 (by norm_num), hN 900 (by norm_num),
    hN 1200 (by norm_num), hN 1800 (by norm_num), hN 2700 (by norm_num),
    hN 3600 (by norm_num), hN 7200 (by norm_num)]
  norm_num [mkPointSync, cexAct]

/-! ### C1: refinement relation between the two entry points -/

theorem streamStep_bp_le (cycling : List Activity) (d : ℕ) (st : BestState)
    (s : PowerStreamData) : st.bp ≤ (streamStep cycling d st s).bp := by
  unfold streamStep
  cases hbest : calculateBestPowerForDuration s.timeData s.powerData (d : ℚ) with
  | none => exact le_refl _
  | some v =>
    dsimp only
    by_cases hacc : v ≠ 0 ∧ st.bp < v
    · rw [if_pos hacc]
      exact hacc.2.le
    · rw [if_neg hacc]

theorem foldl_streamStep_bp_le (cycling : List Activity) (d : ℕ) :
    ∀ (ss : List PowerStreamData) (st : BestState),
      st.bp ≤ (ss.foldl (streamStep cycling d) st).bp := by
  intro ss
  induction ss with
  | nil =>
    intro st
    exact le_refl _
  | cons s ss ih =>
    intro st
    rw [List.foldl_cons]
    exact le_trans (streamStep_bp_le cycling d st s) (ih _)

theorem syncStep_bp_mono (jsPow : ℚ → ℚ → ℚ) (d : ℕ) (a : Activity)
    {s0 s1 : BestState} (h : s0.bp ≤ s1.bp) :
    (syncStep jsPow d s0 a).bp ≤ (syncStep jsPow d s1 a).bp := by
  unfold syncStep
  cases hest : estimateBestPowerForDuration jsPow a d with
  | none => exact h
  | some v =>
    dsimp only
    by_cases h0 : v ≠ 0 ∧ s0.bp < v
    · rw [if_pos h0]
      by_cases h1 : v ≠ 0 ∧ s1.bp < v
      · rw [if_pos h1]
      · rw [if_neg h1]
        exact not_lt.mp (fun hc => h1 ⟨h0.1, hc⟩)
    · rw [if_neg h0]
      by_cases h1 : v ≠ 0 ∧ s1.bp < v
      · rw [if_pos h1]
        exact le_of_lt (lt_of_le_of_lt h h1.2)
      · rw [if_neg h1]
        exact h

theorem foldl_syncStep_bp_mono (jsPow : ℚ → ℚ → ℚ) (d : ℕ) :
    ∀ (xs : List Activity) {s0 s1 : BestState}, s0.bp ≤ s1.bp →
      (xs.foldl (syncStep jsPow d) s0).bp ≤ (xs.foldl (syncStep jsPow d) s1).bp := by
  intro xs
  induction xs with
  | nil =>
    intro s0 s1 h
    exact h
  | cons a xs ih =>
    intro s0 s1 h
    rw [List.foldl_cons, List.foldl_cons]
    exact ih (syncStep_bp_mono jsPow d a h)

theorem syncStep_ok (jsPow : ℚ → ℚ → ℚ) (d : ℕ) (st : BestState) (a : Activity)
    (h : 0 < st.bp → st.act.isSome = true) :
    0 < (syncStep jsPow d st a).bp → (syncStep jsPow d st a).act.isSome = true := by
  unfold syncStep
  cases hest : estimateBestPowerForDuration jsPow a d with
  | none => exact h
  | some v =>
    dsimp only
    by_cases hacc : v ≠ 0 ∧ st.bp < v
    · rw [if_pos hacc]
      intro _
      rfl
    · rw [if_neg hacc]
      exact h

theorem foldl_syncStep_ok (jsPow : ℚ → ℚ → ℚ) (d : ℕ) :
    ∀ (xs : List Activity) (st : BestState),
      (0 < st.bp → st.act.isSome = true) →
      0 < (xs.foldl (syncStep jsPow d) st).bp →
      (xs.foldl (syncStep jsPow d) st).act.isSome = true := by
  intro xs
  induction xs with
  | nil =>
    intro st h
    exact h
  | cons a xs ih =>
    intro st h
    rw [List.foldl_cons]
    exact ih _ (syncStep_ok jsPow d st a h)

theorem findById_isSome (l : List Activity) (id : ℕ) (a : Activity) (ha : a ∈ l)
    (hid : a.id = id) : (findById l id).isSome = true := by
  unfold findById
  have hmem : a ∈ l.filter (fun x => x.id == id) :=
    List.mem_filter.mpr ⟨ha, by simp [hid]⟩
  cases hlast : (l.filter (fun x => x.id == id)).getLast? with
  | none =>
    rw [List.getLast?_eq_none_iff] at hlast
    rw [hlast] at hmem
    cases hmem
  | some b => rfl

theorem streamStep_ok (cycling : List Activity) (d : ℕ) (st : BestState)
    (s : PowerStreamData) (hact : ∃ a ∈ cycling, a.id = s.activityId)
    (h : 0 < st.bp → st.act.isSome = true) :
    0 < (streamStep cycling d st s).bp → (streamStep cycling d st s).act.isSome = true := by
  unfold streamStep
  cases hbest : calculateBestPowerForDuration s.timeData s.powerData (d : ℚ) with
  | none => exact h
  | some v =>
    dsimp only
    by_cases hacc : v ≠ 0 ∧ st.bp < v
    · rw [if_pos hacc]
      intro _
      obtain ⟨a, ha, hid⟩ := hact
      exact findById_isSome cycling s.activityId a ha hid
    · rw [if_neg hacc]
      exact h

theorem foldl_streamStep_ok (cycling : List Activity) (d : ℕ) :
    ∀ (ss : List PowerStreamData) (st : BestState),
      (∀ s ∈ ss, ∃ a ∈ cycling, a.id = s.activityId) →
      (0 < st.bp → st.act.isSome = true) →
      0 < (ss.foldl (streamStep cycling d) st).bp →
      (ss.foldl (streamStep cycling d) st).act.isSome = true := by
  intro ss
  induction ss with
  | nil =>
    intro st _ h
    exact h
  | cons s ss ih =>
    intro st hids h
    rw [List.foldl_cons]
    exact ih _ (fun r hr => hids r (List.mem_cons_of_mem _ hr))
      (streamStep_ok cycling d st s (hids s (List.mem_cons_self s ss)) h)

theorem mkPoint_of (iv : Interval) (st : BestState) (a : Activity)
    (ha : st.act = some a) (hbp : 0 < st.bp) :
    mkPoint iv st =
      some ⟨iv.seconds, iv.label, st.bp, a.id, a.name, a.start_date, st.fs⟩ := by
  unfold mkPoint
  rw [ha]
  dsimp only
  rw [if_pos hbp]

theorem cyclingWithPower_filter (activities : List Activity) (q : Activity → Bool) :
    cyclingWithPower (activities.filter q) = (cyclingWithPower activities).filter q := by
  unfold cyclingWithPower
  rw [List.filter_filter, List.filter_filter]
  congr 1
  funext a
  rw [Bool.and_comm]

/-- C1 (amended): assuming the fetch succeeds with streams whose activity ids
all belong to the candidate set, the stream-augmented curve dominates, for
every duration, the synchronous estimation-only curve computed over the
activities that received no stream. (Activities with a stream use stream data
exclusively, so their synchronous estimate can legitimately be replaced by a
lower stream-based value — the refinement as originally stated fails; see the
counterexample.) -/
theorem powerCurve_stream_refinement (jsPow : ℚ → ℚ → ℚ) (activities : List Activity)
    (streams : List PowerStreamData) (periodLabel : String) (p : PowerCurvePoint)
    (hids : ∀ s ∈ streams, ∃ a ∈ cyclingWithPower activities, a.id = s.activityId)
    (hp : p ∈ (calculatePowerCurveSync jsPow
      (activities.filter (fun a => !(hasStreamFor streams a.id))) periodLabel).points) :
    ∃ q ∈ (calculatePowerCurve jsPow activities (some streams) periodLabel).points,
      q.duration = p.duration ∧ p.power ≤ q.power := by
  simp only [calculatePowerCurveSync] at hp
  rw [cyclingWithPower_filter] at hp
  rcases List.mem_filterMap.mp hp with ⟨iv, hiv, hmk⟩
  obtain ⟨hbp1, hdur, hpow⟩ := mkPointSync_eq_some hmk
  by_cases hemp : (cyclingWithPower activities).isEmpty = true
  · exfalso
    rw [List.isEmpty_iff] at hemp
    rw [hemp] at hbp1
    simp only [List.filter_nil, List.foldl_nil] at hbp1
    exact absurd hbp1 (lt_irrefl 0)
  · have hstS_nonneg : (0 : ℤ) ≤ (streams.foldl
        (streamStep (cyclingWithPower activities) iv.seconds) ⟨0, none, false⟩).bp :=
      foldl_streamStep_bp_le (cyclingWithPower activities) iv.seconds streams ⟨0, none, false⟩
    have hst2eq : (cyclingWithPower activities).foldl
        (estStep jsPow streams iv.seconds)
        (streams.foldl (streamStep (cyclingWithPower activities) iv.seconds)
          ⟨0, none, false⟩) =
      ((cyclingWithPower activities).filter
        (fun a => !(hasStreamFor streams a.id))).foldl (syncStep jsPow iv.seconds)
        (streams.foldl (streamStep (cyclingWithPower activities) iv.seconds)
          ⟨0, none, false⟩) :=
      foldl_estStep_eq_filter jsPow streams iv.seconds _ _
    have hmono : (((cyclingWithPower activities).filter
        (fun a => !(hasStreamFor streams a.id))).foldl (syncStep jsPow iv.seconds)
          ⟨0, none, false⟩).bp ≤
        (((cyclingWithPower activities).filter
          (fun a => !(hasStreamFor streams a.id))).foldl (syncStep jsPow iv.seconds)
          (streams.foldl (streamStep (cyclingWithPower activities) iv.seconds)
            ⟨0, none, false⟩)).bp :=
      foldl_syncStep_bp_mono jsPow iv.seconds _ hstS_nonneg
    have hbp2 : 0 < (((cyclingWithPower activities).filter
        (fun a => !(hasStreamFor streams a.id))).foldl (syncStep jsPow iv.seconds)
        (streams.foldl (streamStep (cyclingWithPower activities) iv.seconds)
          ⟨0, none, false⟩)).bp :=
      lt_of_lt_of_le hbp1 hmono
    have hok : (((cyclingWithPower activities).filter
        (fun a => !(hasStreamFor streams a.id))).foldl (syncStep jsPow iv.seconds)
        (streams.foldl (streamStep (cyclingWithPower activities) iv.seconds)
          ⟨0, none, false⟩)).act.isSome = true := by
      refine foldl_syncStep_ok jsPow iv.seconds _ _ ?_ hbp2
      intro hpos
      exact foldl_streamStep_ok (cyclingWithPower activities) iv.seconds streams
        ⟨0, none, false⟩ hids (fun h => absurd h (lt_irrefl 0)) hpos
    obtain ⟨a2, ha2⟩ := Option.isSome_iff_exists.mp hok
    refine ⟨⟨iv.seconds, iv.label,
      (((cyclingWithPower activities).filter
        (fun a => !(hasStreamFor streams a.id))).foldl (syncStep jsPow iv.seconds)
        (streams.foldl (streamStep (cyclingWithPower activities) iv.seconds)
          ⟨0, none, false⟩)).bp,
      a2.id, a2.name, a2.start_date,
      (((cyclingWithPower activities).filter
        (fun a => !(hasStreamFor streams a.id))).foldl (syncStep jsPow iv.seconds)
        (streams.foldl (streamStep (cyclingWithPower activities) iv.seconds)
          ⟨0, none, false⟩)).fs⟩, ?_, ?_, ?_⟩
    · simp only [calculatePowerCurve, if_neg hemp, Option.getD_some]
      refine List.mem_filterMap.mpr ⟨iv, hiv, ?_⟩
      rw [hst2eq]
      exact mkPoint_of iv _ a2 ha2 hbp2
    · rw [hdur]
    · rw [hpow]
      exact hmono

/-! ### Counterexamples and witnesses for C1 and C3 -/

theorem cex_streamStep_five (mt : Option ℕ) :
    streamStep [cexAct mt] 5 ⟨0, none, false⟩ cexStream =
      ⟨100, some (cexAct mt), true⟩ := by
  have hfind : findById [cexAct mt] 1 = some (cexAct mt) := by
    unfold findById
    rw [List.filter_cons, if_pos (by norm_num [cexAct])]
    rfl
  unfold streamStep cexStream
  dsimp only
  rw [calculateBestPowerForDuration_const 5 100 5 (by norm_num) (by norm_num) (by norm_num)]
  dsimp only
  rw [if_pos (by norm_num)]
  rw [hfind]
  norm_num

theorem cex_streamStep_none (mt : Option ℕ) (t : ℕ) (ht : 5 < t) :
    streamStep [cexAct mt] t ⟨0, none, false⟩ cexStream = ⟨0, none, false⟩ := by
  unfold streamStep cexStream
  dsimp only
  rw [calculateBestPowerForDuration_const_none 5 100 (by norm_num) (t : ℚ)
    (by exact_mod_cast ht)]

theorem cex_estStep_skip (mt : Option ℕ) (t : ℕ) (st : BestState) :
    estStep jsPow0 [cexStream] t st (cexAct mt) = st := by
  unfold estStep
  rw [if_pos (by norm_num [hasStreamFor, cexStream, cexAct])]

set_option maxHeartbeats 2000000 in
theorem cex_async_points (mt : Option ℕ) :
    (calculatePowerCurve jsPow0 [cexAct mt] (some [cexStream]) "All Time").points =
      [⟨5, "5s", 100, 1, "ride", "2024-01-01", true⟩] := by
  simp only [calculatePowerCurve, cexAct_cyclingWithPower]
  rw [if_neg (by simp)]
  simp only [Option.getD_some]
  unfold POWER_CURVE_INTERVALS
  simp only [List.filterMap_cons, List.filterMap_nil, List.foldl_cons, List.foldl_nil]
  simp only [cex_estStep_skip]
  rw [cex_streamStep_five, cex_streamStep_none mt 15 (by norm_num),
    cex_streamStep_none mt 30 (by norm_num), cex_streamStep_none mt 60 (by norm_num),
    cex_streamStep_none mt 120 (by norm_num), cex_streamStep_none mt 180 (by norm_num),
    cex_streamStep_none mt 300 (by norm_num), cex_streamStep_none mt 480 (by norm_num),
    cex_streamStep_none mt 600 (by norm_num), cex_streamStep_none mt 900 (by norm_num),
    cex_streamStep_none mt 1200 (by norm_num), cex_streamStep_none mt 1800 (by norm_num),
    cex_streamStep_none mt 2700 (by norm_num), cex_streamStep_none mt 3600 (by norm_num),
    cex_streamStep_none mt 7200 (by norm_num)]
  norm_num [mkPoint, cexAct]

/-- Counterexample for C1: one candidate activity (300 W average, 5 s moving
time, no max-power reading) and a successful fetch returning one stream for it
(5 s at a constant 100 W). The synchronous curve carries a 5 s point at
300 W, but the stream-augmented curve replaces it by the authoritative stream
value 100 W — strictly worse, refuting the monotonic-refinement claim. -/
theorem powerCurve_refinement_cex :
    (calculatePowerCurveSync jsPow0 [cexAct (some 5)] "All Time").points.map
      (fun q => (q.duration, q.power)) = [(5, 300)] ∧
    (calculatePowerCurve jsPow0 [cexAct (some 5)] (some [cexStream]) "All Time").points.map
      (fun q => (q.duration, q.power)) = [(5, 100)] ∧
    ¬ ((300 : ℤ) ≤ 100) := by
  refine ⟨?_, ?_, by norm_num⟩
  · rw [cex_sync_points]
    rfl
  · rw [cex_async_points]
    rfl

/-- Witness for the amended C1: with no streams fetched, the restricted
synchronous point at 5 s (300 W) is dominated by a stream-augmented point. -/
theorem powerCurve_stream_refinement_witness :
    ∃ q ∈ (calculatePowerCurve jsPow0 [cexAct (some 5)]
        (some ([] : List PowerStreamData)) "All Time").points,
      q.duration = (⟨5, "5s", 300, 1, "ride", "2024-01-01", false⟩ : PowerCurvePoint).duration ∧
      (⟨5, "5s", 300, 1, "ride", "2024-01-01", false⟩ : PowerCurvePoint).power ≤ q.power :=
  powerCurve_stream_refinement jsPow0 [cexAct (some 5)] [] "All Time"
    ⟨5, "5s", 300, 1, "ride", "2024-01-01", false⟩
    (by intro s hs; cases hs)
    (by
      rw [show ([cexAct (some 5)]).filter (fun a => !(hasStreamFor [] a.id)) =
        [cexAct (some 5)] from rfl]
      rw [cex_sync_points]
      exact List.mem_singleton.mpr rfl)

/-- Counterexample for C3: the only candidate activity moves for just 1 s,
yet the fetched 5-second stream makes the calculator emit a 5 s point — the
stream path gates on the stream's time span, not the activity's moving time. -/
theorem powerCurvePoint_emission_cex :
    (calculatePowerCurve jsPow0 [cexAct (some 1)] (some [cexStream]) "All Time").points.map
      (fun q => (q.duration, q.power)) = [(5, 100)] ∧
    (cexAct (some 1)).moving_time.getD 0 < 5 := by
  refine ⟨?_, by norm_num [cexAct]⟩
  rw [cex_async_points]
  rfl

/-- Witness for the amended C3 at the counterexample input: the emitted 5 s
point is justified by the fetched stream's span. -/
theorem powerCurvePoint_emission_witness :
    (∃ a ∈ cyclingWithPower [cexAct (some 1)],
      (⟨5, "5s", 100, 1, "ride", "2024-01-01", true⟩ : PowerCurvePoint).duration ≤
        a.moving_time.getD 0) ∨
    (∃ s ∈ (some [cexStream] : Option (List PowerStreamData)).getD [], ∃ f l,
      s.timeData.head? = some f ∧ s.timeData.getLast? = some l ∧
      (((⟨5, "5s", 100, 1, "ride", "2024-01-01", true⟩ : PowerCurvePoint).duration : ℕ) : ℚ) ≤
        l - f) :=
  (powerCurvePoint_emission jsPow0 [cexAct (some 1)] (some [cexStream]) "All Time"
    ⟨5, "5s", 100, 1, "ride", "2024-01-01", true⟩).1
    (by
      rw [cex_async_points]
      exact List.mem_singleton.mpr rfl)

end StravaStats
